import Mathlib

/-!
# Verification of the Stanse sharded-ledger core

A shallow embedding of `src/backend/polis-protocol/src/types.rs` and
`src/backend/polis-protocol/src/blockchain.rs`, together with proofs about
the claims of the specification.

Modelling conventions:
* Rust `String` values are modelled as lists of bytes (`List Nat`, each
  entry `< 256`); Rust `str::len` is byte length, `starts_with` is
  `List.isPrefixOf`, `is_empty` is `List.isEmpty`.
* `u64` fields are modelled as `Nat` (the code never reaches wrap-around in
  the scenarios covered here), `i64` timestamps as `Int`; `to_le_bytes`
  takes the two's-complement residue modulo `2 ^ 64` explicitly.
* `f32` ideology coordinates are modelled as `ℚ`; the code performs no
  arithmetic on them, only `<=` comparisons, which agree with the rational
  order on every exactly-representable value (all bounds in the code are
  small integers).
* `HashMap` fields are modelled as association lists; `values()` iteration
  order is the list order.
* Calls to `Utc::now()` and `uuid::new_v4()` are modelled by explicit
  `now : Int` and `fresh_id` parameters.
* `sha2::Sha256` is modelled by an executable SHA-256 over byte lists,
  with `format!("{:x}", …)` as lowercase hex encoding of the 32 digest
  bytes (64 characters).
-/

namespace Stanse

/-- Byte strings: lists of byte values. -/
abbrev Bytes := List Nat

/-- ASCII bytes of a Lean string literal (used for concrete inputs). -/
def asciiBytes (s : String) : Bytes := s.data.map Char.toNat

/-! ## SHA-256 over byte lists -/

/-- Truncate to a 32-bit word. -/
def w32 (n : Nat) : Nat := n % 4294967296

/-- 32-bit addition. -/
def wadd (a b : Nat) : Nat := (a + b) % 4294967296

/-- Right rotation of a 32-bit word. -/
def rotr (n x : Nat) : Nat := ((x >>> n) ||| (x <<< (32 - n))) % 4294967296

/-- SHA-256 `Ch(x, y, z)`. -/
def chFn (x y z : Nat) : Nat := (x &&& y) ^^^ ((x ^^^ 4294967295) &&& z)

/-- SHA-256 `Maj(x, y, z)`. -/
def majFn (x y z : Nat) : Nat := (x &&& y) ^^^ (x &&& z) ^^^ (y &&& z)

/-- SHA-256 `Σ₀`. -/
def bigSigma0 (x : Nat) : Nat := rotr 2 x ^^^ rotr 13 x ^^^ rotr 22 x

/-- SHA-256 `Σ₁`. -/
def bigSigma1 (x : Nat) : Nat := rotr 6 x ^^^ rotr 11 x ^^^ rotr 25 x

/-- SHA-256 `σ₀`. -/
def smallSigma0 (x : Nat) : Nat := rotr 7 x ^^^ rotr 18 x ^^^ (x >>> 3)

/-- SHA-256 `σ₁`. -/
def smallSigma1 (x : Nat) : Nat := rotr 17 x ^^^ rotr 19 x ^^^ (x >>> 10)

/-- The 64 SHA-256 round constants. -/
def sha256K : List Nat :=
  [1116352408, 1899447441, 3049323471, 3921009573, 961987163, 1508970993,
   2453635748, 2870763221, 3624381080, 310598401, 607225278, 1426881987,
   1925078388, 2162078206, 2614888103, 3248222580, 3835390401, 4022224774,
   264347078, 604807628, 770255983, 1249150122, 1555081692, 1996064986,
   2554220882, 2821834349, 2952996808, 3210313671, 3336571891, 3584528711,
   113926993, 338241895, 666307205, 773529912, 1294757372, 1396182291,
   1695183700, 1986661051, 2177026350, 2456956037, 2730485921, 2820302411,
   3259730800, 3345764771, 3516065817, 3600352804, 4094571909, 275423344,
   430227734, 506948616, 659060556, 883997877, 958139571, 1322822218,
   1537002063, 1747873779, 1955562222, 2024104815, 2227730452, 2361852424,
   2428436474, 2756734187, 3204031479, 3329325298]

/-- The SHA-256 initial hash value. -/
def sha256H0 : List Nat :=
  [1779033703, 3144134277, 1013904242, 2773480762, 1359893119, 2600822924,
   528734635, 1541459225]

/-- Big-endian 8-byte encoding. -/
def beBytes8 (n : Nat) : Bytes :=
  [n / 72057594037927936 % 256, n / 281474976710656 % 256,
   n / 1099511627776 % 256, n / 4294967296 % 256, n / 16777216 % 256,
   n / 65536 % 256, n / 256 % 256, n % 256]

/-- Big-endian 4-byte encoding of a 32-bit word. -/
def beBytes4 (n : Nat) : Bytes :=
  [n / 16777216 % 256, n / 65536 % 256, n / 256 % 256, n % 256]

/-- SHA-256 padding: append `0x80`, zeros to 56 mod 64, then the bit length
big-endian in 8 bytes. -/
def sha256Pad (msg : Bytes) : Bytes :=
  let L := msg.length
  let zeroCount := (119 - L % 64) % 64
  msg ++ [128] ++ List.replicate zeroCount 0 ++ beBytes8 (8 * L)

/-- Group bytes into big-endian 32-bit words. -/
def bytesToWords : Bytes → List Nat
  | a :: b :: c :: d :: rest =>
      (((a * 256 + b) * 256 + c) * 256 + d) :: bytesToWords rest
  | _ => []

/-- Split a word list into 16-word blocks (fuel-structured so that the
kernel can evaluate it; `fuel = l.length` always suffices since each step
drops at least one element of a nonempty list). -/
def chunk16Fuel : Nat → List Nat → List (List Nat)
  | 0, _ => []
  | _, [] => []
  | fuel + 1, l => l.take 16 :: chunk16Fuel fuel (l.drop 16)

/-- Split a word list into 16-word blocks. -/
def chunk16 (l : List Nat) : List (List Nat) := chunk16Fuel l.length l

/-- Extend a reversed schedule prefix by one word (the list holds the
schedule words most-recent-first, so `w[i-2]` is at position 1 and
`w[i-16]` at position 15). -/
def schedStepRev (w : List Nat) : List Nat :=
  wadd (wadd (smallSigma1 (w.getD 1 0)) (w.getD 6 0))
       (wadd (smallSigma0 (w.getD 14 0)) (w.getD 15 0)) :: w

/-- The 64-word message schedule of one block. -/
def schedule (block : List Nat) : List Nat :=
  ((List.range 48).foldl (fun w _ => schedStepRev w) block.reverse).reverse

/-- One round of the SHA-256 compression loop. -/
def roundStep (s : Nat × Nat × Nat × Nat × Nat × Nat × Nat × Nat)
    (kw : Nat × Nat) : Nat × Nat × Nat × Nat × Nat × Nat × Nat × Nat :=
  match s with
  | (a, b, c, d, e, f, g, hh) =>
    let t1 := wadd hh (wadd (bigSigma1 e) (wadd (chFn e f g) (wadd kw.1 kw.2)))
    let t2 := wadd (bigSigma0 a) (majFn a b c)
    (wadd t1 t2, a, b, c, wadd d t1, e, f, g)

/-- Compress one 16-word block into the running hash value. -/
def compressBlock (hv : List Nat) (block : List Nat) : List Nat :=
  let ws := schedule block
  let s0 := (hv.getD 0 0, hv.getD 1 0, hv.getD 2 0, hv.getD 3 0,
             hv.getD 4 0, hv.getD 5 0, hv.getD 6 0, hv.getD 7 0)
  match (sha256K.zip ws).foldl roundStep s0 with
  | (a, b, c, d, e, f, g, hh) =>
    [wadd (hv.getD 0 0) a, wadd (hv.getD 1 0) b, wadd (hv.getD 2 0) c,
     wadd (hv.getD 3 0) d, wadd (hv.getD 4 0) e, wadd (hv.getD 5 0) f,
     wadd (hv.getD 6 0) g, wadd (hv.getD 7 0) hh]

/-- SHA-256 digest of a byte string, as 32 bytes. -/
def sha256 (msg : Bytes) : Bytes :=
  ((chunk16 (bytesToWords (sha256Pad msg))).foldl compressBlock
    sha256H0).flatMap beBytes4

/-- ASCII code of the lowercase hex digit of `n < 16`. -/
def hexChar (n : Nat) : Nat := if n < 10 then 48 + n else 87 + n

/-- Lowercase hex encoding of a byte string. -/
def toHex (digest : Bytes) : Bytes :=
  digest.flatMap (fun b => [hexChar (b / 16), hexChar (b % 16)])

/-- `format!("{:x}", Sha256::digest(msg))`: 64 lowercase hex characters. -/
def sha256Hex (msg : Bytes) : Bytes := toHex (sha256 msg)

/-! ## Data model (`types.rs`) -/

/-- `ActionType` (types.rs): the closed event-kind enum. -/
inductive ActionType
  | Boycott
  | Buycott
  | Vote
  | Donate
  | Rally
deriving DecidableEq

/-- `impl fmt::Display for ActionType` (types.rs): the bytes written by
`to_string()`. -/
def ActionType.toBytes : ActionType → Bytes
  | .Boycott => asciiBytes "BOYCOTT"
  | .Buycott => asciiBytes "BUYCOTT"
  | .Vote => asciiBytes "VOTE"
  | .Donate => asciiBytes "DONATE"
  | .Rally => asciiBytes "RALLY"

/-- `ImpactAction` (types.rs). -/
structure ImpactAction where
  user_did : Bytes
  action_type : ActionType
  target_entity : Bytes
  value_diverted : Nat
  zk_proof : Bytes
  timestamp : Int
  action_id : Bytes
deriving DecidableEq

/-- `u64::to_le_bytes`: little-endian 8-byte encoding. -/
def leBytes8 (n : Nat) : Bytes :=
  [n % 256, n / 256 % 256, n / 65536 % 256, n / 16777216 % 256,
   n / 4294967296 % 256, n / 1099511627776 % 256,
   n / 281474976710656 % 256, n / 72057594037927936 % 256]

/-- `i64::to_le_bytes`: little-endian 8-byte two's-complement encoding. -/
def leBytesInt8 (i : Int) : Bytes := leBytes8 (i % 18446744073709551616).toNat

/-- `ImpactAction::hash` (types.rs): SHA-256 over the DID, the displayed
action type, the target, and the little-endian value and timestamp; the
`zk_proof` and `action_id` fields are not hashed. -/
def ImpactAction.hash (a : ImpactAction) : Bytes :=
  sha256Hex (a.user_did ++ a.action_type.toBytes ++ a.target_entity ++
    leBytes8 a.value_diverted ++ leBytesInt8 a.timestamp)

/-- The recognized external-authority proof tag `"firebase_verified_"`. -/
def firebaseVerifiedTag : Bytes := asciiBytes "firebase_verified_"

/-- `ImpactAction::verify_zk_proof` (types.rs): non-empty, and either the
Firebase tag is a prefix or the byte length is at least 32. -/
def ImpactAction.verify_zk_proof (a : ImpactAction) : Bool :=
  !a.zk_proof.isEmpty &&
    (firebaseVerifiedTag.isPrefixOf a.zk_proof || decide (32 ≤ a.zk_proof.length))

/-- `PolisBlock` (types.rs). -/
structure PolisBlock where
  index : Nat
  timestamp : Int
  actions : List ImpactAction
  previous_hash : Bytes
  union_strength : Nat
  merkle_root : Bytes
  hash : Bytes
  validator : Bytes
deriving DecidableEq

/-- `PolisBlock::calculate_strength` (types.rs): the number of actions. -/
def PolisBlock.calculate_strength (b : PolisBlock) : Nat := b.actions.length

/-- `PolisBlock::calculate_hash` (types.rs): SHA-256 over index, timestamp,
previous hash, Merkle root and union strength. -/
def PolisBlock.calculate_hash (b : PolisBlock) : Bytes :=
  sha256Hex (leBytes8 b.index ++ leBytesInt8 b.timestamp ++ b.previous_hash ++
    b.merkle_root ++ leBytes8 b.union_strength)

/-- `PolisBlock::verify` (types.rs): recomputed-hash check, then (when a
previous block is given) the previous-hash and height-linkage checks, then
the proof predicate of every contained action; any failure returns false. -/
def PolisBlock.verify (b : PolisBlock) (previous_block : Option PolisBlock) : Bool :=
  if b.hash == b.calculate_hash then
    (match previous_block with
     | some prev => b.previous_hash == prev.hash && b.index == prev.index + 1
     | none => true) &&
    b.actions.all (fun a => a.verify_zk_proof)
  else
    false

/-- `CampaignStatus` (types.rs). -/
inductive CampaignStatus
  | Active
  | Achieved
  | Expired
  | Paused
deriving DecidableEq

/-- `CampaignState` (types.rs). -/
structure CampaignState where
  campaign_id : Bytes
  verified_participants_count : Nat
  goal_participants : Nat
  total_capital_diverted : Nat
  end_block : Nat
  action_proofs_root : Bytes
  status : CampaignStatus
  created_at : Int
  last_updated : Int
deriving DecidableEq

/-- `CampaignState::is_goal_reached` (types.rs). -/
def CampaignState.is_goal_reached (c : CampaignState) : Bool :=
  decide (c.goal_participants ≤ c.verified_participants_count)

/-- `NodeStatus` (types.rs). -/
structure NodeStatus where
  node_id : Bytes
  is_online : Bool
  last_heartbeat_block : Nat
  active_shards : List Bytes
  reputation_score : Nat
  last_updated : Int
deriving DecidableEq

/-- `DecentralizedPoliticianState` (types.rs). -/
structure DecentralizedPoliticianState where
  blockchain : List PolisBlock
  treasury : Nat
  active_campaigns : List CampaignState
  online_nodes_count : Nat
  total_union_strength : Nat
  total_capital_diverted : Nat
deriving DecidableEq

/-- `DecentralizedPoliticianState::new` (types.rs). -/
def DecentralizedPoliticianState.new : DecentralizedPoliticianState :=
  { blockchain := [], treasury := 0, active_campaigns := [],
    online_nodes_count := 0, total_union_strength := 0,
    total_capital_diverted := 0 }

/-- `DecentralizedPoliticianState::latest_block` (types.rs). -/
def DecentralizedPoliticianState.latest_block
    (s : DecentralizedPoliticianState) : Option PolisBlock :=
  s.blockchain.getLast?

/-- `DecentralizedPoliticianState::height` (types.rs). -/
def DecentralizedPoliticianState.height (s : DecentralizedPoliticianState) : Nat :=
  s.blockchain.length

/-- `DecentralizedPoliticianState::add_block` (types.rs): verify against the
chain tail; on failure return the error with the state untouched; on success
add the block's strength and every action's value to the running totals and
push the block. The pair mirrors the Rust `(&mut self, …) -> Result` shape:
the second component is the state after the call. -/
def DecentralizedPoliticianState.add_block (s : DecentralizedPoliticianState)
    (block : PolisBlock) : Except String Unit × DecentralizedPoliticianState :=
  if block.verify s.blockchain.getLast? then
    (Except.ok (),
     { s with
       total_union_strength := s.total_union_strength + block.union_strength,
       total_capital_diverted :=
         block.actions.foldl (fun acc a => acc + a.value_diverted)
           s.total_capital_diverted,
       blockchain := s.blockchain ++ [block] })
  else
    (Except.error "Block verification failed", s)

/-! ## Shard layer (`blockchain.rs`) -/

/-- `IdeologyRange` (blockchain.rs); `f32` bounds modelled as `ℚ`. -/
structure IdeologyRange where
  economic_min : ℚ
  economic_max : ℚ
  social_min : ℚ
  social_max : ℚ
  diplomatic_min : ℚ
  diplomatic_max : ℚ
deriving DecidableEq

/-- `IdeologyRange::contains` (blockchain.rs): all six closed-bound
comparisons hold. -/
def IdeologyRange.containsVec (r : IdeologyRange) (v : ℚ × ℚ × ℚ) : Bool :=
  decide (r.economic_min ≤ v.1) && decide (v.1 ≤ r.economic_max) &&
  decide (r.social_min ≤ v.2.1) && decide (v.2.1 ≤ r.social_max) &&
  decide (r.diplomatic_min ≤ v.2.2) && decide (v.2.2 ≤ r.diplomatic_max)

/-- `StanceShard` (blockchain.rs); the `nodes` HashMap is an association
list. -/
structure StanceShard where
  shard_id : Bytes
  ideology_range : IdeologyRange
  state : DecentralizedPoliticianState
  pending_actions : List ImpactAction
  nodes : List (Bytes × NodeStatus)
deriving DecidableEq

/-- Association-list lookup, modelling `HashMap::get`. -/
def lookupA {α : Type} (m : List (Bytes × α)) (k : Bytes) : Option α :=
  (m.find? (fun p => p.1 == k)).map (fun p => p.2)

/-- Association-list insert-or-replace, modelling `HashMap::insert`
(replacing in place keeps the modelled iteration order stable, matching a
`get_mut` update). -/
def insertA {α : Type} (m : List (Bytes × α)) (k : Bytes) (v : α) :
    List (Bytes × α) :=
  if m.any (fun p => p.1 == k) then
    m.map (fun p => if p.1 == k then (k, v) else p)
  else
    m ++ [(k, v)]

/-- `StanceShard::new` (blockchain.rs). -/
def StanceShard.new (shard_id : Bytes) (ideology_range : IdeologyRange) :
    StanceShard :=
  { shard_id, ideology_range, state := DecentralizedPoliticianState.new,
    pending_actions := [], nodes := [] }

/-- `StanceShard::add_pending_action` (blockchain.rs): reject the action
with `"Invalid ZK proof"` when its proof predicate fails, otherwise push it
onto the pending pool. -/
def StanceShard.add_pending_action (sh : StanceShard) (action : ImpactAction) :
    Except String Unit × StanceShard :=
  if action.verify_zk_proof then
    (Except.ok (), { sh with pending_actions := sh.pending_actions ++ [action] })
  else
    (Except.error "Invalid ZK proof", sh)

/-- One folding level of `StanceShard::calculate_merkle_root`
(blockchain.rs): `chunks(2)` pairs adjacent hashes; a full pair is hashed
over the concatenation, and the odd leftover chunk is also re-hashed alone
(the Rust loop applies `Sha256` to `combined` in both branches). -/
def merkleChunkFold : List Bytes → List Bytes
  | [] => []
  | [x] => [sha256Hex x]
  | x :: y :: rest => sha256Hex (x ++ y) :: merkleChunkFold rest

/-- The `while hashes.len() > 1` loop of `calculate_merkle_root`,
fuel-structured so that the kernel can evaluate it; each iteration at least
halves a list of length `≥ 2`, so `fuel = hashes.length` always suffices. -/
def merkleLevelsFuel : Nat → List Bytes → List Bytes
  | 0, hashes => hashes
  | fuel + 1, hashes =>
      if 1 < hashes.length then merkleLevelsFuel fuel (merkleChunkFold hashes)
      else hashes

/-- The level-folding loop of `calculate_merkle_root`. -/
def merkleLevels (hashes : List Bytes) : List Bytes :=
  merkleLevelsFuel hashes.length hashes

/-- The all-zero 64-character sentinel `"0".repeat(64)`. -/
def zeroSentinel : Bytes := List.replicate 64 48

/-- `StanceShard::calculate_merkle_root` (blockchain.rs): the sentinel for
an empty pool, otherwise the level fold over the actions' content hashes. -/
def calculate_merkle_root (actions : List ImpactAction) : Bytes :=
  if actions.isEmpty then zeroSentinel
  else (merkleLevels (actions.map ImpactAction.hash)).headD []

/-- The block built by the non-empty branch of `StanceShard::produce_block`
(blockchain.rs): index `height`, previous hash from the chain tail (or the
sentinel), the Merkle root of the whole pool, strength and hash filled in. -/
def builtBlock (sh : StanceShard) (validator : Bytes) (now : Int) : PolisBlock :=
  let previous_block := sh.state.latest_block
  let index := sh.state.height
  let previous_hash :=
    match previous_block with
    | some b => b.hash
    | none => zeroSentinel
  let merkle_root := calculate_merkle_root sh.pending_actions
  let block : PolisBlock :=
    { index, timestamp := now, actions := sh.pending_actions, previous_hash,
      union_strength := 0, merkle_root, hash := [], validator }
  let block := { block with union_strength := block.calculate_strength }
  { block with hash := block.calculate_hash }

/-- `StanceShard::produce_block` (blockchain.rs): fails on an empty pool;
otherwise builds `builtBlock` over the whole pool and clears the pool.
`now` stands for `Utc::now()`. -/
def StanceShard.produce_block (sh : StanceShard) (validator : Bytes)
    (now : Int) : Except String PolisBlock × StanceShard :=
  if sh.pending_actions.isEmpty then
    (Except.error "No pending actions to include in block", sh)
  else
    (Except.ok (builtBlock sh validator now), { sh with pending_actions := [] })

/-- `StanceShard::add_block` (blockchain.rs): delegate to the state. -/
def StanceShard.add_block (sh : StanceShard) (block : PolisBlock) :
    Except String Unit × StanceShard :=
  let r := sh.state.add_block block
  (r.1, { sh with state := r.2 })

/-- `StanceShard::update_node_status` (blockchain.rs): upsert the node
entry, then recount the online nodes. -/
def StanceShard.update_node_status (sh : StanceShard) (node_id : Bytes)
    (is_online : Bool) (now : Int) : StanceShard :=
  let nodes :=
    if (lookupA sh.nodes node_id).isSome then
      sh.nodes.map (fun p =>
        if p.1 == node_id then
          (p.1, { p.2 with is_online := is_online,
                           last_heartbeat_block := sh.state.height,
                           last_updated := now })
        else p)
    else
      sh.nodes ++ [(node_id,
        { node_id := node_id, is_online := is_online,
          last_heartbeat_block := sh.state.height,
          active_shards := [sh.shard_id], reputation_score := 0,
          last_updated := now })]
  { sh with
    nodes := nodes,
    state := { sh.state with
               online_nodes_count :=
                 (nodes.filter (fun p => p.2.is_online)).length } }

/-- `StanceShard::get_campaign_state` (blockchain.rs): first campaign with
the given id. -/
def StanceShard.get_campaign_state (sh : StanceShard) (campaign_id : Bytes) :
    Option CampaignState :=
  sh.state.active_campaigns.find? (fun c => c.campaign_id == campaign_id)

/-- The mutation `update_campaign_state` applies to the matched campaign
(blockchain.rs): increment the participant count, add the action's value,
refresh the update time, then flip an Active campaign that reached its goal
to Achieved. -/
def updateMatchedCampaign (c : CampaignState) (action : ImpactAction)
    (now : Int) : CampaignState :=
  let c :=
    { c with
      verified_participants_count := c.verified_participants_count + 1,
      total_capital_diverted := c.total_capital_diverted + action.value_diverted,
      last_updated := now }
  if c.is_goal_reached && c.status == CampaignStatus.Active then
    { c with status := CampaignStatus.Achieved }
  else c

/-- `iter_mut().find` + in-place mutation: update the first campaign whose
id matches, leave the rest alone. -/
def updateFirstCampaign (l : List CampaignState) (campaign_id : Bytes)
    (action : ImpactAction) (now : Int) : List CampaignState :=
  match l with
  | [] => []
  | c :: rest =>
      if c.campaign_id == campaign_id then
        updateMatchedCampaign c action now :: rest
      else
        c :: updateFirstCampaign rest campaign_id action now

/-- `StanceShard::update_campaign_state` (blockchain.rs). -/
def StanceShard.update_campaign_state (sh : StanceShard) (campaign_id : Bytes)
    (action : ImpactAction) (now : Int) : StanceShard :=
  { sh with state := { sh.state with
      active_campaigns :=
        updateFirstCampaign sh.state.active_campaigns campaign_id action now } }

/-- `StanceShard::create_campaign` (blockchain.rs): fail on a duplicate id,
otherwise push a fresh Active campaign. -/
def StanceShard.create_campaign (sh : StanceShard) (campaign_id : Bytes)
    (goal_participants duration_blocks : Nat) (now : Int) :
    Except String Unit × StanceShard :=
  if sh.state.active_campaigns.any (fun c => c.campaign_id == campaign_id) then
    (Except.error "Campaign already exists", sh)
  else
    (Except.ok (),
     { sh with state := { sh.state with
         active_campaigns := sh.state.active_campaigns ++
           [{ campaign_id, verified_participants_count := 0, goal_participants,
              total_capital_diverted := 0,
              end_block := sh.state.height + duration_blocks,
              action_proofs_root := [], status := CampaignStatus.Active,
              created_at := now, last_updated := now }] } })

/-! ## Coordinator layer (`blockchain.rs`, `PolisProtocol`) -/

/-- `FirebaseUserInfo` (blockchain.rs). -/
structure FirebaseUserInfo where
  firebase_uid : Bytes
  polis_did : Bytes
  display_name : Bytes
  coordinates : ℚ × ℚ × ℚ
  is_online : Bool
  last_activity : Int
  total_actions : Nat
deriving DecidableEq

/-- `PolisProtocol` (blockchain.rs); the three HashMaps are association
lists whose order models `values()` iteration order. -/
structure PolisProtocol where
  shards : List (Bytes × StanceShard)
  user_routes : List (Bytes × List Bytes)
  firebase_users : List (Bytes × FirebaseUserInfo)
deriving DecidableEq

/-- `PolisProtocol::register_shard` (blockchain.rs). -/
def PolisProtocol.register_shard (p : PolisProtocol) (shard : StanceShard) :
    PolisProtocol :=
  { p with shards := insertA p.shards shard.shard_id shard }

/-- `PolisProtocol::route_user` (blockchain.rs): ids of all shards whose
ideology range contains the vector. -/
def PolisProtocol.route_user (p : PolisProtocol) (v : ℚ × ℚ × ℚ) :
    List Bytes :=
  (p.shards.filter (fun q => q.2.ideology_range.containsVec v)).map
    (fun q => q.2.shard_id)

/-- `PolisProtocol::submit_action` (blockchain.rs). -/
def PolisProtocol.submit_action (p : PolisProtocol) (shard_id : Bytes)
    (action : ImpactAction) : Except String Unit × PolisProtocol :=
  match lookupA p.shards shard_id with
  | none => (Except.error "Shard not found", p)
  | some sh =>
      let r := sh.add_pending_action action
      (r.1, { p with shards := insertA p.shards shard_id r.2 })

/-- The DID prefix used by `register_firebase_user` and friends. -/
def didPolisFirebase : Bytes := asciiBytes "did:polis:firebase:"

/-- `PolisProtocol::register_firebase_user` (blockchain.rs): route the
coordinates, mark the user online in every routed shard, store the user
info and the routing entry; always returns `Ok(polis_did)`. -/
def PolisProtocol.register_firebase_user (p : PolisProtocol)
    (firebase_uid display_name : Bytes) (coordinates : ℚ × ℚ × ℚ)
    (now : Int) : Except String Bytes × PolisProtocol :=
  let polis_did := didPolisFirebase ++ firebase_uid
  let shard_ids := p.route_user coordinates
  let shards := shard_ids.foldl (fun shards sid =>
      match lookupA shards sid with
      | some sh => insertA shards sid (sh.update_node_status polis_did true now)
      | none => shards) p.shards
  (Except.ok polis_did,
   { p with
     shards := shards,
     firebase_users := insertA p.firebase_users firebase_uid
       { firebase_uid := firebase_uid, polis_did := polis_did,
         display_name := display_name, coordinates := coordinates,
         is_online := true, last_activity := now, total_actions := 0 },
     user_routes := insertA p.user_routes polis_did shard_ids })

/-- The per-shard body of `record_user_action`'s shard loop
(blockchain.rs): lazily create the campaign keyed by the target (a creation
failure is only logged), update the campaign, enqueue the action (`?` on
failure), and — since the pool threshold is 1 — immediately produce a block
(a production failure is only logged) and append it (`?` on failure). -/
def recordActionOnShard (sh : StanceShard) (polis_did : Bytes)
    (action : ImpactAction) (now : Int) : Except String Unit × StanceShard :=
  let campaign_id := action.target_entity
  let sh :=
    if (sh.get_campaign_state campaign_id).isNone then
      (sh.create_campaign campaign_id 1000 10000 now).2
    else sh
  let sh := sh.update_campaign_state campaign_id action now
  match sh.add_pending_action action with
  | (Except.error e, sh) => (Except.error e, sh)
  | (Except.ok _, sh) =>
    if 1 ≤ sh.pending_actions.length then
      match sh.produce_block polis_did now with
      | (Except.ok block, sh) =>
          match sh.add_block block with
          | (Except.error e, sh) => (Except.error e, sh)
          | (Except.ok _, sh) => (Except.ok (), sh)
      | (Except.error _, sh) => (Except.ok (), sh)
    else (Except.ok (), sh)

/-- The `for shard_id in shard_ids` loop of `record_user_action`
(blockchain.rs): unknown shard ids are skipped; an error from a shard body
aborts the loop (`?`) with every mutation made so far kept. -/
def recordActionLoop (p : PolisProtocol) (shard_ids : List Bytes)
    (polis_did : Bytes) (action : ImpactAction) (now : Int) :
    Except String Unit × PolisProtocol :=
  match shard_ids with
  | [] => (Except.ok (), p)
  | sid :: rest =>
      match lookupA p.shards sid with
      | none => recordActionLoop p rest polis_did action now
      | some sh =>
          match recordActionOnShard sh polis_did action now with
          | (Except.error e, sh) =>
              (Except.error e, { p with shards := insertA p.shards sid sh })
          | (Except.ok _, sh) =>
              recordActionLoop { p with shards := insertA p.shards sid sh }
                rest polis_did action now

/-- `PolisProtocol::record_user_action` (blockchain.rs): look up the user
(`"User not found"` otherwise), build the action with the
`firebase_verified_` proof, run the shard loop over the user's routing
entry, and on full success bump the user's action counter. `now` stands for
`Utc::now()` and `fresh_id` for `uuid::new_v4()`. -/
def PolisProtocol.record_user_action (p : PolisProtocol) (firebase_uid : Bytes)
    (action_type : ActionType) (target : Bytes) (value_cents : Nat)
    (now : Int) (fresh_id : Bytes) : Except String Unit × PolisProtocol :=
  match lookupA p.firebase_users firebase_uid with
  | none => (Except.error "User not found", p)
  | some user =>
      let polis_did := user.polis_did
      let action : ImpactAction :=
        { user_did := polis_did, action_type := action_type,
          target_entity := target, value_diverted := value_cents,
          zk_proof := firebaseVerifiedTag ++ firebase_uid,
          timestamp := now, action_id := fresh_id }
      let step :=
        match lookupA p.user_routes polis_did with
        | none => (Except.ok (), p)
        | some shard_ids => recordActionLoop p shard_ids polis_did action now
      match step with
      | (Except.error e, p) => (Except.error e, p)
      | (Except.ok _, p) =>
          (Except.ok (),
           { p with firebase_users := p.firebase_users.map (fun q =>
               if q.1 == firebase_uid then
                 (q.1, { q.2 with total_actions := q.2.total_actions + 1 })
               else q) })

/-! ## The specification's reference Merkle definition

The spec (§4.3) states the odd leftover hash is "carried forward
unchanged (not duplicated, not hashed with itself)". The following
definitions follow those words, to be compared with
`calculate_merkle_root` above, which was translated from the code. -/

/-- Modelled from the spec: one folding level with the odd leftover carried
forward unchanged. -/
def specChunkFold : List Bytes → List Bytes
  | [] => []
  | [x] => [x]
  | x :: y :: rest => sha256Hex (x ++ y) :: specChunkFold rest

/-- Modelled from the spec: fold levels until one digest remains
(fuel-structured for kernel evaluation, as for `merkleLevelsFuel`). -/
def specMerkleLevelsFuel : Nat → List Bytes → List Bytes
  | 0, hashes => hashes
  | fuel + 1, hashes =>
      if 1 < hashes.length then specMerkleLevelsFuel fuel (specChunkFold hashes)
      else hashes

/-- Modelled from the spec: the reference Merkle root — the all-zero
sentinel for an empty pool, otherwise the fold over the content hashes
with the odd node carried forward unchanged. -/
def specMerkleRoot (actions : List ImpactAction) : Bytes :=
  if actions.isEmpty then zeroSentinel
  else (specMerkleLevelsFuel (actions.length) (actions.map ImpactAction.hash)).headD []

/-! ## Sequential chain-building driver

The spec's hash-chain property speaks about producing and appending N
blocks sequentially (`produceBlock` followed by `appendBlock`), refilling
the pending pool between blocks via `add_pending_action`. -/

/-- Enqueue a list of actions one by one via `add_pending_action`,
keeping the shard state of each call (rejected actions are dropped). -/
def enqueueAll (sh : StanceShard) (pool : List ImpactAction) : StanceShard :=
  pool.foldl (fun s a => (s.add_pending_action a).2) sh

/-- `produce_block` immediately followed by `add_block`, as in the spec's
sequential scenario. -/
def produceAndAppend (sh : StanceShard) (validator : Bytes) (now : Int) :
    Except String Unit × StanceShard :=
  match sh.produce_block validator now with
  | (Except.ok block, sh) => sh.add_block block
  | (Except.error e, sh) => (Except.error e, sh)

/-- One sequential round: refill the pool, produce, append. -/
def runChainStep (sh : StanceShard) (step : List ImpactAction × Bytes × Int) :
    StanceShard :=
  (produceAndAppend (enqueueAll sh step.1) step.2.1 step.2.2).2

/-- Run N sequential rounds. -/
def runChain (sh : StanceShard) (steps : List (List ImpactAction × Bytes × Int)) :
    StanceShard :=
  steps.foldl runChainStep sh

/-- `PolisProtocol::new` (blockchain.rs): the five base shards, registered
in source order. -/
def PolisProtocol.new : PolisProtocol :=
  let protocol : PolisProtocol :=
    { shards := [], user_routes := [], firebase_users := [] }
  let protocol := protocol.register_shard (StanceShard.new
    (asciiBytes "progressive-left")
    { economic_min := -100, economic_max := -20, social_min := 20,
      social_max := 100, diplomatic_min := -100, diplomatic_max := 100 })
  let protocol := protocol.register_shard (StanceShard.new
    (asciiBytes "conservative-right")
    { economic_min := 20, economic_max := 100, social_min := -100,
      social_max := -20, diplomatic_min := -100, diplomatic_max := 100 })
  let protocol := protocol.register_shard (StanceShard.new
    (asciiBytes "centrist-moderate")
    { economic_min := -40, economic_max := 40, social_min := -40,
      social_max := 40, diplomatic_min := -100, diplomatic_max := 100 })
  let protocol := protocol.register_shard (StanceShard.new
    (asciiBytes "traditional-left")
    { economic_min := -100, economic_max := -20, social_min := -100,
      social_max := 20, diplomatic_min := -100, diplomatic_max := 100 })
  let protocol := protocol.register_shard (StanceShard.new
    (asciiBytes "libertarian-right")
    { economic_min := 20, economic_max := 100, social_min := 20,
      social_max := 100, diplomatic_min := -100, diplomatic_max := 100 })
  protocol

/-! ## Concrete fixtures used by witnesses and counterexamples -/

/-- A proof token of length 39 (≥ 32), accepted by the baseline policy. -/
def longProof : Bytes := asciiBytes "zkproof_simulated_0123456789abcdef01234"

/-- Concrete event 1 of the three-event Merkle pool. -/
def mEvent1 : ImpactAction :=
  { user_did := asciiBytes "did:polis:u1", action_type := .Boycott,
    target_entity := asciiBytes "ACME", value_diverted := 5000,
    zk_proof := longProof, timestamp := 1700000000,
    action_id := asciiBytes "a1" }

/-- Concrete event 2 of the three-event Merkle pool. -/
def mEvent2 : ImpactAction :=
  { user_did := asciiBytes "did:polis:u2", action_type := .Vote,
    target_entity := asciiBytes "ACME", value_diverted := 0,
    zk_proof := longProof, timestamp := 1700000001,
    action_id := asciiBytes "a2" }

/-- Concrete event 3 of the three-event Merkle pool. -/
def mEvent3 : ImpactAction :=
  { user_did := asciiBytes "did:polis:u3", action_type := .Donate,
    target_entity := asciiBytes "ACME", value_diverted := 125,
    zk_proof := longProof, timestamp := 1700000002,
    action_id := asciiBytes "a3" }

/-- Header of a concrete block over an empty chain. -/
def vbBase : PolisBlock :=
  { index := 0, timestamp := 1700000000, actions := [],
    previous_hash := zeroSentinel, union_strength := 0,
    merkle_root := zeroSentinel, hash := [], validator := asciiBytes "val-1" }

/-- The block `vbBase` with its stored hash filled in correctly. -/
def vbGood : PolisBlock := { vbBase with hash := vbBase.calculate_hash }

/-- `vbGood` with a hashed field mutated but the stored hash kept. -/
def vbTampered : PolisBlock := { vbGood with union_strength := 99 }

/-- Header of a concrete first block with a nonzero index and a junk
previous hash (for the genesis-gap claim). -/
def looseBase : PolisBlock :=
  { index := 7, timestamp := 1700000050, actions := [],
    previous_hash := asciiBytes "junk-previous-hash", union_strength := 0,
    merkle_root := zeroSentinel, hash := [], validator := asciiBytes "val-1" }

/-- `looseBase` with its stored hash filled in correctly. -/
def looseBlock : PolisBlock := { looseBase with hash := looseBase.calculate_hash }

/-- An ideology range covering the whole space. -/
def fullRange : IdeologyRange :=
  { economic_min := -100, economic_max := 100, social_min := -100,
    social_max := 100, diplomatic_min := -100, diplomatic_max := 100 }

/-- A pre-existing chain tail whose index is 5 (reachable by the public
`add_block` on an empty chain, see the genesis-gap claim). -/
def strayTail : PolisBlock :=
  { index := 5, timestamp := 1699990000, actions := [],
    previous_hash := zeroSentinel, union_strength := 0,
    merkle_root := zeroSentinel, hash := asciiBytes "stray-tail-hash",
    validator := asciiBytes "val-0" }

/-- A shard whose chain tail is `strayTail` and whose pool is empty. -/
def strayShard : StanceShard :=
  { shard_id := asciiBytes "s1", ideology_range := fullRange,
    state := { DecentralizedPoliticianState.new with blockchain := [strayTail] },
    pending_actions := [], nodes := [] }

/-- The Firebase uid of the concrete user routed to `strayShard`. -/
def strayUid : Bytes := asciiBytes "u42"

/-- The DID of the concrete user routed to `strayShard`. -/
def strayDid : Bytes := didPolisFirebase ++ strayUid

/-- The registered user record routed to `strayShard`. -/
def strayUser : FirebaseUserInfo :=
  { firebase_uid := strayUid, polis_did := strayDid,
    display_name := asciiBytes "U", coordinates := (0, 0, 0),
    is_online := true, last_activity := 0, total_actions := 0 }

/-- A protocol whose single shard is `strayShard` and whose single user is
routed to it. -/
def strayProtocol : PolisProtocol :=
  { shards := [(asciiBytes "s1", strayShard)],
    user_routes := [(strayDid, [asciiBytes "s1"])],
    firebase_users := [(strayUid, strayUser)] }

/-- A fresh shard for the sequential chain fixture. -/
def seqShard : StanceShard := StanceShard.new (asciiBytes "seq") fullRange

/-- Two sequential one-event rounds for the chain fixture. -/
def seqSteps : List (List ImpactAction × Bytes × Int) :=
  [([mEvent1], asciiBytes "val-1", 1700000100),
   ([mEvent2], asciiBytes "val-1", 1700000200)]

/-- A campaign one matching event away from its goal. -/
def nearGoalCampaign : CampaignState :=
  { campaign_id := asciiBytes "ACME", verified_participants_count := 2,
    goal_participants := 3, total_capital_diverted := 900, end_block := 10000,
    action_proofs_root := [], status := CampaignStatus.Active,
    created_at := 0, last_updated := 0 }

/-- An action whose proof token is too short for the baseline policy. -/
def shortProofAction : ImpactAction :=
  { mEvent1 with zk_proof := asciiBytes "short", action_id := asciiBytes "a4" }

/-- `mEvent1` with a different event id and proof token (content hash must
not change). -/
def mEvent1Alt : ImpactAction :=
  { mEvent1 with zk_proof := asciiBytes "another-proof-token-0123456789abcdef",
                 action_id := asciiBytes "a9" }

/-- The coordinates (0, 80, 0): matched by none of the five base shards. -/
def unroutedCoords : ℚ × ℚ × ℚ := (0, 80, 0)

/-- Header of a block containing an invalid-proof event. -/
def badBase : PolisBlock := { vbBase with actions := [shortProofAction] }

/-- `badBase` with its stored hash filled in correctly (it still fails
verification: the contained event's proof is invalid). -/
def badBlock : PolisBlock := { badBase with hash := badBase.calculate_hash }

/-- The action `record_user_action` builds in the stray-tail scenario. -/
def strayAction : ImpactAction :=
  { user_did := strayDid, action_type := .Boycott,
    target_entity := asciiBytes "ACME", value_diverted := 100,
    zk_proof := firebaseVerifiedTag ++ strayUid, timestamp := 1700000000,
    action_id := asciiBytes "id-1" }

/-- The shard state the loop body of `record_user_action` has built right
after the campaign upsert and the enqueue (the state handed to
`produce_block`). -/
def upsertedShard (sh : StanceShard) (action : ImpactAction) (now : Int) :
    StanceShard :=
  let sh :=
    if (sh.get_campaign_state action.target_entity).isNone then
      (sh.create_campaign action.target_entity 1000 10000 now).2
    else sh
  let sh := sh.update_campaign_state action.target_entity action now
  { sh with pending_actions := sh.pending_actions ++ [action] }

/-- The chain shape asserted by the spec: heights are the 0-based
positions (strictly increasing and gapless), and every block's
previous-hash equals the hash of the block before it. -/
def ChainIndexedLinked (l : List PolisBlock) : Prop :=
  (∀ (i : Nat) (h : i < l.length), (l.get ⟨i, h⟩).index = i) ∧
  (∀ (i : Nat) (h : i + 1 < l.length) (h' : i < l.length),
    (l.get ⟨i + 1, h⟩).previous_hash = (l.get ⟨i, h'⟩).hash)

/-- The invariant maintained between sequential rounds: an empty pool and
a well-shaped chain. -/
def GoodShard (sh : StanceShard) : Prop :=
  sh.pending_actions = [] ∧ ChainIndexedLinked sh.state.blockchain

/-! # Theorems -/

set_option maxRecDepth 40000

set_option maxHeartbeats 4000000

/-- Sanity check of the SHA-256 embedding against the FIPS 180-4 test
vector for the message "abc". -/
theorem sha256_abc_vector :
    sha256Hex (asciiBytes "abc") =
      asciiBytes "ba7816bf8f01cfea414140de5dae2223b00361a396177a9cb410ff61f20015ad" := by
  decide

/-! ## Helper lemmas about blocks and the state -/

/-- Characterization of `PolisBlock.verify` as a conjunction of the three
checks performed by the code. -/
theorem verify_true_iff (b : PolisBlock) (prev : Option PolisBlock) :
    b.verify prev = true ↔
      b.hash = b.calculate_hash ∧
      (∀ q, prev = some q → b.previous_hash = q.hash ∧ b.index = q.index + 1) ∧
      (∀ a ∈ b.actions, a.verify_zk_proof = true) := by
  cases hc : (b.hash == b.calculate_hash) with
  | false =>
      have hne : b.hash ≠ b.calculate_hash := by
        intro h
        rw [h] at hc
        simp at hc
      simp [PolisBlock.verify, hc, hne]
  | true =>
      have heq : b.hash = b.calculate_hash := by
        exact beq_iff_eq.mp hc
      cases prev with
      | none => simp [PolisBlock.verify, hc, heq, List.all_eq_true]
      | some q =>
          simp [PolisBlock.verify, hc, heq, List.all_eq_true, and_assoc]

/-- Folding `+ value_diverted` over a list adds the sum of the values. -/
theorem foldl_add_value (l : List ImpactAction) (init : Nat) :
    l.foldl (fun acc a => acc + a.value_diverted) init =
      init + (l.map (fun a => a.value_diverted)).sum := by
  induction l generalizing init with
  | nil => simp
  | cons a t ih => simp [List.foldl_cons, ih, Nat.add_assoc]

/-- `add_block` on a passing block: append and update both totals. -/
theorem add_block_eq_ok (s : DecentralizedPoliticianState) (b : PolisBlock)
    (h : b.verify s.blockchain.getLast? = true) :
    s.add_block b =
      (Except.ok (),
       { s with
         total_union_strength := s.total_union_strength + b.union_strength,
         total_capital_diverted := s.total_capital_diverted +
           (b.actions.map (fun a => a.value_diverted)).sum,
         blockchain := s.blockchain ++ [b] }) := by
  simp [DecentralizedPoliticianState.add_block, h, foldl_add_value]

/-- `add_block` on a failing block: the error, with the state unchanged. -/
theorem add_block_eq_err (s : DecentralizedPoliticianState) (b : PolisBlock)
    (h : b.verify s.blockchain.getLast? = false) :
    s.add_block b = (Except.error "Block verification failed", s) := by
  simp [DecentralizedPoliticianState.add_block, h]

/-- `add_pending_action` on a valid action appends to the pool. -/
theorem add_pending_action_eq_ok (sh : StanceShard) (a : ImpactAction)
    (h : a.verify_zk_proof = true) :
    sh.add_pending_action a =
      (Except.ok (),
       { sh with pending_actions := sh.pending_actions ++ [a] }) := by
  simp [StanceShard.add_pending_action, h]

/-- `calculate_hash` ignores the stored hash, so filling the hash field
with the recomputed hash makes the two agree. -/
theorem filled_hash_ok (b : PolisBlock) :
    ({ b with hash := b.calculate_hash } : PolisBlock).hash =
      ({ b with hash := b.calculate_hash } : PolisBlock).calculate_hash := rfl

/-- The built block carries the pool as its action list. -/
theorem builtBlock_actions (sh : StanceShard) (v : Bytes) (t : Int) :
    (builtBlock sh v t).actions = sh.pending_actions := rfl

/-- The built block's index is the current height. -/
theorem builtBlock_index (sh : StanceShard) (v : Bytes) (t : Int) :
    (builtBlock sh v t).index = sh.state.blockchain.length := rfl

/-- The built block's stored hash is its recomputed hash. -/
theorem builtBlock_hash_ok (sh : StanceShard) (v : Bytes) (t : Int) :
    (builtBlock sh v t).hash = (builtBlock sh v t).calculate_hash := rfl

/-- The built block's previous-hash is the chain tail's hash. -/
theorem builtBlock_prev (sh : StanceShard) (v : Bytes) (t : Int)
    (last : PolisBlock) (h : sh.state.blockchain.getLast? = some last) :
    (builtBlock sh v t).previous_hash = last.hash := by
  simp [builtBlock, DecentralizedPoliticianState.latest_block, h]

/-- `produce_block` on a non-empty pool: the built block, and the pool is
cleared. -/
theorem produce_block_eq_ok (sh : StanceShard) (v : Bytes) (t : Int)
    (h : sh.pending_actions ≠ []) :
    sh.produce_block v t =
      (Except.ok (builtBlock sh v t), { sh with pending_actions := [] }) := by
  have hb : sh.pending_actions.isEmpty = false := by
    cases hp : sh.pending_actions with
    | nil => exact absurd hp h
    | cons x xs => rfl
  simp [StanceShard.produce_block, hb]

/-- Shard-level `add_block` on a verifying block. -/
theorem shard_add_block_eq_ok (sh : StanceShard) (b : PolisBlock)
    (h : b.verify sh.state.blockchain.getLast? = true) :
    sh.add_block b =
      (Except.ok (),
       { sh with state := { sh.state with
           total_union_strength := sh.state.total_union_strength + b.union_strength,
           total_capital_diverted := sh.state.total_capital_diverted +
             (b.actions.map (fun a => a.value_diverted)).sum,
           blockchain := sh.state.blockchain ++ [b] } }) := by
  unfold StanceShard.add_block
  rw [add_block_eq_ok sh.state b h]

/-- Shard-level `add_block` on a failing block: error, shard unchanged. -/
theorem shard_add_block_eq_err (sh : StanceShard) (b : PolisBlock)
    (h : b.verify sh.state.blockchain.getLast? = false) :
    sh.add_block b = (Except.error "Block verification failed", sh) := by
  unfold StanceShard.add_block
  rw [add_block_eq_err sh.state b h]

/-- Valid actions are all appended by `enqueueAll`. -/
theorem enqueueAll_valid (pool : List ImpactAction) (sh : StanceShard)
    (h : ∀ a ∈ pool, a.verify_zk_proof = true) :
    enqueueAll sh pool =
      { sh with pending_actions := sh.pending_actions ++ pool } := by
  induction pool generalizing sh with
  | nil => simp [enqueueAll]
  | cons a t ih =>
      unfold enqueueAll
      rw [List.foldl_cons, add_pending_action_eq_ok sh a (h a (by simp))]
      have ht : ∀ x ∈ t, x.verify_zk_proof = true := fun x hx => h x (by simp [hx])
      have := ih { sh with pending_actions := sh.pending_actions ++ [a] } ht
      unfold enqueueAll at this
      rw [this]
      simp

/-! ## Helper lemmas about the chain shape -/

/-- The tail of a well-indexed chain sits at index `length - 1`. -/
theorem chain_last_index (l : List PolisBlock) (hinv : ChainIndexedLinked l)
    (last : PolisBlock) (h : l.getLast? = some last) :
    last.index + 1 = l.length := by
  have hne : l ≠ [] := by
    intro hl
    subst hl
    simp at h
  have hlt : l.length - 1 < l.length := by
    cases l with
    | nil => exact absurd rfl hne
    | cons x xs => simp
  rw [List.getLast?_eq_getElem?, List.getElem?_eq_getElem hlt] at h
  have hidx := hinv.1 (l.length - 1) hlt
  rw [List.get_eq_getElem] at hidx
  have hlast : last = l[l.length - 1] := (Option.some_inj.mp h).symm
  rw [hlast, hidx]
  omega

/-- Appending a correctly-linked next block preserves the chain shape. -/
theorem chainIndexedLinked_append (l : List PolisBlock) (b : PolisBlock)
    (hinv : ChainIndexedLinked l)
    (hidx : b.index = l.length)
    (hprev : ∀ last, l.getLast? = some last → b.previous_hash = last.hash) :
    ChainIndexedLinked (l ++ [b]) := by
  constructor
  · intro i h
    rw [List.get_eq_getElem]
    have hlen : i < l.length + 1 := by simpa using h
    by_cases hi : i < l.length
    · rw [List.getElem_append_left hi]
      have := hinv.1 i hi
      rw [List.get_eq_getElem] at this
      exact this
    · have hieq : i = l.length := by omega
      rw [List.getElem_concat_length l b i hieq]
      rw [hidx, hieq]
  · intro i h h'
    rw [List.get_eq_getElem, List.get_eq_getElem]
    have hlen : i + 1 < l.length + 1 := by simpa using h
    by_cases hi : i + 1 < l.length
    · have hil : i < l.length := by omega
      rw [List.getElem_append_left hi, List.getElem_append_left hil]
      have := hinv.2 i hi hil
      rw [List.get_eq_getElem, List.get_eq_getElem] at this
      exact this
    · have hieq : i + 1 = l.length := by omega
      have hil : i < l.length := by omega
      rw [List.getElem_concat_length l b (i + 1) hieq]
      rw [List.getElem_append_left hil]
      apply hprev
      have hi1 : l.length - 1 = i := by omega
      rw [List.getLast?_eq_getElem?, hi1, List.getElem?_eq_getElem hil]

/-- One produce-and-append round on a shard with a well-shaped chain and a
valid non-empty pool: the built block is appended. -/
theorem produceAndAppend_good (sh : StanceShard) (v : Bytes) (t : Int)
    (hne : sh.pending_actions ≠ [])
    (hval : ∀ a ∈ sh.pending_actions, a.verify_zk_proof = true)
    (hinv : ChainIndexedLinked sh.state.blockchain) :
    produceAndAppend sh v t =
      (Except.ok (),
       { sh with
         pending_actions := [],
         state := { sh.state with
           total_union_strength := sh.state.total_union_strength +
             (builtBlock sh v t).union_strength,
           total_capital_diverted := sh.state.total_capital_diverted +
             ((builtBlock sh v t).actions.map (fun a => a.value_diverted)).sum,
           blockchain := sh.state.blockchain ++ [builtBlock sh v t] } }) := by
  have hverify : (builtBlock sh v t).verify sh.state.blockchain.getLast? = true := by
    apply (verify_true_iff _ _).mpr
    refine ⟨builtBlock_hash_ok sh v t, ?_, ?_⟩
    · intro q hq
      refine ⟨builtBlock_prev sh v t q hq, ?_⟩
      rw [builtBlock_index]
      exact (chain_last_index _ hinv q hq).symm
    · rw [builtBlock_actions]
      exact hval
  unfold produceAndAppend
  rw [produce_block_eq_ok sh v t hne]
  exact shard_add_block_eq_ok _ _ hverify

/-- One full sequential round preserves `GoodShard` and grows the chain by
one block. -/
theorem runChainStep_good (sh : StanceShard) (pool : List ImpactAction)
    (v : Bytes) (t : Int) (hg : GoodShard sh) (hpool : pool ≠ [])
    (hval : ∀ a ∈ pool, a.verify_zk_proof = true) :
    GoodShard (runChainStep sh (pool, v, t)) ∧
    (runChainStep sh (pool, v, t)).state.blockchain.length =
      sh.state.blockchain.length + 1 := by
  obtain ⟨hpend, hinv⟩ := hg
  have hen : enqueueAll sh pool = { sh with pending_actions := pool } := by
    rw [enqueueAll_valid pool sh hval, hpend]
    simp
  unfold runChainStep
  rw [hen]
  rw [produceAndAppend_good _ v t (by simpa using hpool) (by simpa using hval)
    (by simpa using hinv)]
  refine ⟨⟨rfl, ?_⟩, by simp⟩
  exact chainIndexedLinked_append _ _ hinv (builtBlock_index _ v t)
    (fun last h => builtBlock_prev _ v t last h)

/-- Sequential rounds from a good shard keep it good and add one block per
round. -/
theorem runChain_good (steps : List (List ImpactAction × Bytes × Int))
    (sh : StanceShard) (hg : GoodShard sh)
    (hsteps : ∀ s ∈ steps, s.1 ≠ [] ∧ ∀ a ∈ s.1, a.verify_zk_proof = true) :
    GoodShard (runChain sh steps) ∧
    (runChain sh steps).state.blockchain.length =
      sh.state.blockchain.length + steps.length := by
  induction steps generalizing sh with
  | nil => exact ⟨hg, by simp [runChain]⟩
  | cons s t ih =>
      obtain ⟨s1, s2, s3⟩ := s
      have hs := hsteps (s1, s2, s3) (by simp)
      have hstep := runChainStep_good sh s1 s2 s3 hg hs.1 hs.2
      have hrest := ih (runChainStep sh (s1, s2, s3)) hstep.1
        (fun x hx => hsteps x (by simp [hx]))
      unfold runChain at hrest ⊢
      rw [List.foldl_cons]
      refine ⟨hrest.1, ?_⟩
      rw [hrest.2, hstep.2]
      simp only [List.length_cons]
      omega

/-! ## Helper lemmas about campaigns -/

/-- `updateMatchedCampaign` preserves the campaign id. -/
theorem updateMatchedCampaign_id (c : CampaignState) (a : ImpactAction)
    (now : Int) :
    (updateMatchedCampaign c a now).campaign_id = c.campaign_id := by
  simp only [updateMatchedCampaign]
  split <;> rfl

/-- `updateMatchedCampaign` always increments the participant count. -/
theorem updateMatchedCampaign_count (c : CampaignState) (a : ImpactAction)
    (now : Int) :
    (updateMatchedCampaign c a now).verified_participants_count =
      c.verified_participants_count + 1 := by
  simp only [updateMatchedCampaign]
  split <;> rfl

/-- The status after `updateMatchedCampaign`: Achieved when the bumped
count reaches the goal from Active, otherwise unchanged. -/
theorem updateMatchedCampaign_status (c : CampaignState) (a : ImpactAction)
    (now : Int) :
    (updateMatchedCampaign c a now).status =
      if c.goal_participants ≤ c.verified_participants_count + 1 ∧
         c.status = CampaignStatus.Active
      then CampaignStatus.Achieved else c.status := by
  simp only [updateMatchedCampaign, CampaignState.is_goal_reached]
  by_cases h1 : c.goal_participants ≤ c.verified_participants_count + 1
  · by_cases h2 : c.status = CampaignStatus.Active
    · simp [h1, h2]
    · simp [h1, h2]
  · simp [h1]

/-- An Achieved campaign stays Achieved through one more update. -/
theorem updateMatchedCampaign_keeps_achieved (c : CampaignState)
    (a : ImpactAction) (now : Int) (h : c.status = CampaignStatus.Achieved) :
    (updateMatchedCampaign c a now).status = CampaignStatus.Achieved := by
  rw [updateMatchedCampaign_status]
  simp [h]

/-- `updateFirstCampaign` commutes with `find?` on the campaign id. -/
theorem find_updateFirstCampaign (l : List CampaignState) (cid : Bytes)
    (a : ImpactAction) (now : Int) :
    (updateFirstCampaign l cid a now).find? (fun c => c.campaign_id == cid) =
      (l.find? (fun c => c.campaign_id == cid)).map
        (fun c => updateMatchedCampaign c a now) := by
  induction l with
  | nil => rfl
  | cons c t ih =>
      by_cases h : c.campaign_id = cid
      · simp [updateFirstCampaign, h, List.find?_cons,
          updateMatchedCampaign_id]
      · simp [updateFirstCampaign, h, List.find?_cons, ih]

/-! ## Helper lemmas about the coordinator maps -/

/-- Looking up a key in an association list whose matching entry was just
replaced finds the new value. -/
theorem lookupA_map_replace {α : Type} (t : List (Bytes × α)) (k : Bytes)
    (v : α) (h : t.any (fun p => p.1 == k) = true) :
    lookupA (t.map (fun p => if p.1 == k then (k, v) else p)) k = some v := by
  induction t with
  | nil => simp at h
  | cons p r ih =>
      by_cases hp : (p.1 == k) = true
      · unfold lookupA
        simp only [List.map_cons]
        rw [if_pos hp, List.find?_cons_of_pos _ (by simp)]
        rfl
      · simp only [List.any_cons, Bool.or_eq_true] at h
        have hr : r.any (fun p => p.1 == k) = true := by
          rcases h with h | h
          · exact absurd h hp
          · exact h
        unfold lookupA
        rw [List.map_cons, if_neg hp, List.find?_cons_of_neg _ (by simp [hp])]
        exact ih hr

/-- Looking up a key just appended to an association list without it finds
the new value. -/
theorem lookupA_append_new {α : Type} (t : List (Bytes × α)) (k : Bytes)
    (v : α) (h : t.any (fun p => p.1 == k) = false) :
    lookupA (t ++ [(k, v)]) k = some v := by
  induction t with
  | nil => simp [lookupA]
  | cons p r ih =>
      simp only [List.any_cons, Bool.or_eq_false_iff] at h
      unfold lookupA
      rw [List.cons_append, List.find?_cons_of_neg _ (by simp [h.1])]
      exact ih h.2

/-- `lookupA` after `insertA` at the same key finds the inserted value. -/
theorem lookupA_insertA_self {α : Type} (m : List (Bytes × α)) (k : Bytes)
    (v : α) : lookupA (insertA m k v) k = some v := by
  unfold insertA
  by_cases h : (m.any fun p => p.1 == k) = true
  · rw [if_pos h]
    exact lookupA_map_replace m k v h
  · have hf : (m.any fun p => p.1 == k) = false := by
      cases hx : (m.any fun p => p.1 == k) with
      | true => exact absurd hx h
      | false => rfl
    rw [if_neg h]
    exact lookupA_append_new m k v hf

/-- `record_user_action` for a user routed to an empty shard set: success,
only the user's action counter changes. -/
theorem record_user_action_empty_routes (p2 : PolisProtocol) (uid : Bytes)
    (info : FirebaseUserInfo) (atype : ActionType) (target : Bytes)
    (value : Nat) (now2 : Int) (fid : Bytes)
    (huser : lookupA p2.firebase_users uid = some info)
    (hroutes : lookupA p2.user_routes info.polis_did = some []) :
    p2.record_user_action uid atype target value now2 fid =
      (Except.ok (),
       { p2 with firebase_users := p2.firebase_users.map (fun q =>
           if q.1 == uid then
             (q.1, { q.2 with total_actions := q.2.total_actions + 1 })
           else q) }) := by
  unfold PolisProtocol.record_user_action
  rw [huser]
  dsimp only []
  rw [hroutes]
  dsimp only [recordActionLoop]

/-- `record_user_action` for a user routed to exactly one shard on which
the loop body errors: the error is propagated and the partially updated
shard is kept. -/
theorem record_user_action_single_shard_err (p2 : PolisProtocol)
    (uid : Bytes) (info : FirebaseUserInfo) (sid : Bytes) (sh : StanceShard)
    (atype : ActionType) (target : Bytes) (value : Nat) (now2 : Int)
    (fid : Bytes) (e : String) (sh' : StanceShard)
    (huser : lookupA p2.firebase_users uid = some info)
    (hroutes : lookupA p2.user_routes info.polis_did = some [sid])
    (hshard : lookupA p2.shards sid = some sh)
    (hstep : recordActionOnShard sh info.polis_did
       { user_did := info.polis_did, action_type := atype,
         target_entity := target, value_diverted := value,
         zk_proof := firebaseVerifiedTag ++ uid, timestamp := now2,
         action_id := fid } now2 = (Except.error e, sh')) :
    p2.record_user_action uid atype target value now2 fid =
      (Except.error e, { p2 with shards := insertA p2.shards sid sh' }) := by
  unfold PolisProtocol.record_user_action
  rw [huser]
  dsimp only []
  rw [hroutes]
  dsimp only [recordActionLoop]
  rw [hshard]
  dsimp only []
  rw [hstep]

/-- The loop body of `record_user_action` on a valid action whose produced
block fails verification against the chain tail: the error escapes and the
pool of the resulting shard is empty. -/
theorem recordActionOnShard_verify_false (sh : StanceShard) (did : Bytes)
    (action : ImpactAction) (now : Int)
    (hval : action.verify_zk_proof = true)
    (hver : (builtBlock (upsertedShard sh action now) did now).verify
      (upsertedShard sh action now).state.blockchain.getLast? = false) :
    recordActionOnShard sh did action now =
      (Except.error "Block verification failed",
       { upsertedShard sh action now with pending_actions := [] }) := by
  simp only [recordActionOnShard, upsertedShard] at hver ⊢
  generalize hA :
    ((if (sh.get_campaign_state action.target_entity).isNone then
        (sh.create_campaign action.target_entity 1000 10000 now).2
      else sh).update_campaign_state action.target_entity action now) = shA
    at hver ⊢
  rw [add_pending_action_eq_ok shA action hval]
  dsimp only []
  set shB : StanceShard :=
    { shA with pending_actions := shA.pending_actions ++ [action] } with hBdef
  have hlen : 1 ≤ shB.pending_actions.length := by
    rw [hBdef]
    simp
  rw [if_pos hlen]
  have hne : shB.pending_actions ≠ [] := by
    rw [hBdef]
    simp
  rw [produce_block_eq_ok shB did now hne]
  dsimp only []
  set shC : StanceShard := { shB with pending_actions := [] } with hCdef
  have hver2 : (builtBlock shB did now).verify
      shC.state.blockchain.getLast? = false := hver
  rw [shard_add_block_eq_err shC _ hver2]

/-- The loop body of `record_user_action` on a valid action whose produced
block passes verification: the call reports success. -/
theorem recordActionOnShard_fst_ok (sh : StanceShard) (did : Bytes)
    (action : ImpactAction) (now : Int)
    (hval : action.verify_zk_proof = true)
    (hver : (builtBlock (upsertedShard sh action now) did now).verify
      (upsertedShard sh action now).state.blockchain.getLast? = true) :
    (recordActionOnShard sh did action now).1 = Except.ok () := by
  simp only [recordActionOnShard, upsertedShard] at hver ⊢
  generalize hA :
    ((if (sh.get_campaign_state action.target_entity).isNone then
        (sh.create_campaign action.target_entity 1000 10000 now).2
      else sh).update_campaign_state action.target_entity action now) = shA
    at hver ⊢
  rw [add_pending_action_eq_ok shA action hval]
  dsimp only []
  set shB : StanceShard :=
    { shA with pending_actions := shA.pending_actions ++ [action] } with hBdef
  have hlen : 1 ≤ shB.pending_actions.length := by
    rw [hBdef]
    simp
  rw [if_pos hlen]
  have hne : shB.pending_actions ≠ [] := by
    rw [hBdef]
    simp
  rw [produce_block_eq_ok shB did now hne]
  dsimp only []
  set shC : StanceShard := { shB with pending_actions := [] } with hCdef
  have hver2 : (builtBlock shB did now).verify
      shC.state.blockchain.getLast? = true := hver
  rw [shard_add_block_eq_ok shC _ hver2]

/-- The stray-tail fixture: the block the loop body produces on top of the
index-5 tail fails verification (its index is 1, not 6) — with no
assumption on hashes. -/
theorem stray_built_verify_false :
    (builtBlock (upsertedShard strayShard strayAction 1700000000) strayDid
       1700000000).verify
      (upsertedShard strayShard strayAction
         1700000000).state.blockchain.getLast? = false := by
  have hchainB : (upsertedShard strayShard strayAction
      1700000000).state.blockchain = [strayTail] := rfl
  cases hv : (builtBlock (upsertedShard strayShard strayAction 1700000000)
      strayDid 1700000000).verify
      (upsertedShard strayShard strayAction
        1700000000).state.blockchain.getLast? with
  | false => rfl
  | true =>
      have hlink := ((verify_true_iff _ _).mp hv).2.1 strayTail
        (by rw [hchainB]; rfl)
      have hidx : (builtBlock (upsertedShard strayShard strayAction
          1700000000) strayDid 1700000000).index = 1 := by
        rw [builtBlock_index, hchainB]
        rfl
      rw [hidx] at hlink
      exact absurd hlink.2 (by decide)

/-! ## The claims -/

/-- C8: the event content hash depends only on the origin identity, kind,
target, value and timestamp — two events agreeing on those five fields
have the same content hash whatever their `action_id` and `zk_proof` are
(and the hash of a fixed event is one fixed value). -/
theorem hash_ignores_id_and_proof : ∀ a b : ImpactAction,
    a.user_did = b.user_did → a.action_type = b.action_type →
    a.target_entity = b.target_entity → a.value_diverted = b.value_diverted →
    a.timestamp = b.timestamp → a.hash = b.hash := by
  intro a b h1 h2 h3 h4 h5
  unfold ImpactAction.hash
  rw [h1, h2, h3, h4, h5]

/-- Witness for C8: two concrete events that differ in event id and proof
token but share the five hashed fields have the same content hash. -/
theorem hash_ignores_id_and_proof_witness :
    mEvent1.action_id ≠ mEvent1Alt.action_id ∧
    mEvent1.zk_proof ≠ mEvent1Alt.zk_proof ∧
    mEvent1.hash = mEvent1Alt.hash :=
  ⟨by decide, by decide,
   hash_ignores_id_and_proof mEvent1 mEvent1Alt rfl rfl rfl rfl rfl⟩

/-- C7: `add_pending_action` fails with the invalid-proof error exactly
when the proof predicate is false, otherwise appends the event to the
pending pool unconditionally (no dedup); and the baseline proof predicate
holds iff the token is non-empty and has the external-authority tag as a
prefix or byte length at least 32. -/
theorem add_pending_action_correct : ∀ (sh : StanceShard) (a : ImpactAction),
    (sh.add_pending_action a = (Except.error "Invalid ZK proof", sh) ↔
      a.verify_zk_proof = false) ∧
    (a.verify_zk_proof = true →
      sh.add_pending_action a =
        (Except.ok (),
         { sh with pending_actions := sh.pending_actions ++ [a] })) ∧
    (a.verify_zk_proof = true ↔
      a.zk_proof ≠ [] ∧
      (firebaseVerifiedTag <+: a.zk_proof ∨ 32 ≤ a.zk_proof.length)) := by
  intro sh a
  refine ⟨⟨?_, ?_⟩, ?_, ?_⟩
  · intro h
    cases hv : a.verify_zk_proof with
    | false => rfl
    | true => simp [StanceShard.add_pending_action, hv] at h
  · intro h
    simp [StanceShard.add_pending_action, h]
  · intro h
    simp [StanceShard.add_pending_action, h]
  · simp [ImpactAction.verify_zk_proof, List.isPrefixOf_iff_prefix,
      List.isEmpty_iff]

/-- Witness for C7: a concrete valid event is appended (even as a
duplicate of a pool entry), and a concrete short-proof event is rejected
with the shard unchanged. -/
theorem add_pending_action_correct_witness :
    mEvent1.verify_zk_proof = true ∧
    (StanceShard.add_pending_action
        { seqShard with pending_actions := [mEvent1] } mEvent1 =
      (Except.ok (),
       { { seqShard with pending_actions := [mEvent1] } with
         pending_actions := [mEvent1] ++ [mEvent1] })) ∧
    shortProofAction.verify_zk_proof = false ∧
    StanceShard.add_pending_action seqShard shortProofAction =
      (Except.error "Invalid ZK proof", seqShard) :=
  ⟨by decide,
   (add_pending_action_correct
      { seqShard with pending_actions := [mEvent1] } mEvent1).2.1 (by decide),
   by decide,
   ((add_pending_action_correct seqShard shortProofAction).1).2 (by decide)⟩

/-- C3: `add_block` is atomic — a block that verifies against the chain
tail is appended with the strength total and diverted-value total bumped
by exactly the block's strength and the sum of its events' values, and a
failing block returns the verification error with the whole state
unchanged. -/
theorem add_block_atomic : ∀ (s : DecentralizedPoliticianState) (b : PolisBlock),
    (b.verify s.blockchain.getLast? = true →
      s.add_block b =
        (Except.ok (),
         { s with
           total_union_strength := s.total_union_strength + b.union_strength,
           total_capital_diverted := s.total_capital_diverted +
             (b.actions.map (fun a => a.value_diverted)).sum,
           blockchain := s.blockchain ++ [b] })) ∧
    (b.verify s.blockchain.getLast? = false →
      s.add_block b = (Except.error "Block verification failed", s)) :=
  fun s b => ⟨add_block_eq_ok s b, add_block_eq_err s b⟩

/-- Witness for C3: a concrete valid block over the fresh state is
appended, and a concrete block carrying an invalid-proof event leaves the
fresh state unchanged. -/
theorem add_block_atomic_witness :
    vbGood.verify DecentralizedPoliticianState.new.blockchain.getLast? = true ∧
    DecentralizedPoliticianState.new.add_block vbGood =
      (Except.ok (),
       { DecentralizedPoliticianState.new with
         total_union_strength := 0 + vbGood.union_strength,
         total_capital_diverted := 0 +
           (vbGood.actions.map (fun a => a.value_diverted)).sum,
         blockchain := [] ++ [vbGood] }) ∧
    badBlock.verify DecentralizedPoliticianState.new.blockchain.getLast? = false ∧
    DecentralizedPoliticianState.new.add_block badBlock =
      (Except.error "Block verification failed",
       DecentralizedPoliticianState.new) := by
  have hgood : vbGood.verify
      DecentralizedPoliticianState.new.blockchain.getLast? = true :=
    (verify_true_iff _ _).mpr ⟨filled_hash_ok vbBase,
      fun q hq => Option.noConfusion hq,
      fun a ha => absurd ha (List.not_mem_nil a)⟩
  have hbad : badBlock.verify
      DecentralizedPoliticianState.new.blockchain.getLast? = false := by
    cases hv : badBlock.verify
        DecentralizedPoliticianState.new.blockchain.getLast? with
    | false => rfl
    | true =>
        have := ((verify_true_iff _ _).mp hv).2.2 shortProofAction
          (List.mem_singleton_self _)
        exact absurd this (by decide)
  exact ⟨hgood, (add_block_atomic _ _).1 hgood, hbad,
    (add_block_atomic _ _).2 hbad⟩

/-- C10: on an empty chain, `add_block` accepts any block whose stored
hash matches its recomputed hash and whose events all pass the proof
predicate — no constraint at all is placed on the block's index or
previous hash, because `verify` only applies the linkage checks when a
previous block exists. -/
theorem add_block_empty_chain_genesis_gap :
    ∀ (s : DecentralizedPoliticianState) (b : PolisBlock),
    s.blockchain = [] → b.hash = b.calculate_hash →
    (∀ a ∈ b.actions, a.verify_zk_proof = true) →
    s.add_block b =
      (Except.ok (),
       { s with
         total_union_strength := s.total_union_strength + b.union_strength,
         total_capital_diverted := s.total_capital_diverted +
           (b.actions.map (fun a => a.value_diverted)).sum,
         blockchain := s.blockchain ++ [b] }) := by
  intro s b hchain hhash hval
  apply add_block_eq_ok
  rw [hchain]
  exact (verify_true_iff _ _).mpr
    ⟨hhash, fun q hq => Option.noConfusion hq, hval⟩

/-- Witness for C10: a concrete correctly-hashed block at index 7 with a
junk previous hash is appended to the fresh (empty-chain) state. -/
theorem add_block_empty_chain_genesis_gap_witness :
    DecentralizedPoliticianState.new.blockchain = [] ∧
    looseBlock.hash = looseBlock.calculate_hash ∧
    looseBlock.index = 7 ∧
    looseBlock.previous_hash ≠ zeroSentinel ∧
    DecentralizedPoliticianState.new.add_block looseBlock =
      (Except.ok (),
       { DecentralizedPoliticianState.new with
         total_union_strength := 0 + looseBlock.union_strength,
         total_capital_diverted := 0 +
           (looseBlock.actions.map (fun a => a.value_diverted)).sum,
         blockchain := [] ++ [looseBlock] }) :=
  ⟨rfl, filled_hash_ok looseBase, rfl, by decide,
   add_block_empty_chain_genesis_gap DecentralizedPoliticianState.new
     looseBlock rfl (filled_hash_ok looseBase)
     (fun a ha => absurd ha (List.not_mem_nil a))⟩

/-- C4: `verify` accepts exactly when the stored hash matches the
recomputed hash, the linkage checks hold whenever a previous block is
given, and every contained event passes the proof predicate; and a block
whose stored hash is inherited from a valid block but whose recomputed
hash differs (as after mutating any hashed field) is rejected. -/
theorem verify_characterization :
    (∀ (b : PolisBlock) (prev : Option PolisBlock),
      b.verify prev = true ↔
        b.hash = b.calculate_hash ∧
        (∀ q, prev = some q → b.previous_hash = q.hash ∧ b.index = q.index + 1) ∧
        (∀ a ∈ b.actions, a.verify_zk_proof = true)) ∧
    (∀ (b b' : PolisBlock) (prev prev' : Option PolisBlock),
      b.verify prev = true → b'.hash = b.hash →
      b'.calculate_hash ≠ b.calculate_hash → b'.verify prev' = false) := by
  refine ⟨verify_true_iff, ?_⟩
  intro b b' prev prev' hb hhash hcalc
  have hb1 : b.hash = b.calculate_hash := ((verify_true_iff b prev).mp hb).1
  cases hv : b'.verify prev' with
  | false => rfl
  | true =>
      have hb2 : b'.hash = b'.calculate_hash :=
        ((verify_true_iff b' prev').mp hv).1
      exact absurd (by rw [← hb2, hhash, hb1]) hcalc

/-- Witness for C4: the concrete block `vbGood` verifies; tampering its
strength field while keeping the stored hash changes the recomputed hash
and makes `verify` reject it. -/
theorem verify_characterization_witness :
    vbGood.verify none = true ∧
    vbTampered.hash = vbGood.hash ∧
    vbTampered.calculate_hash ≠ vbGood.calculate_hash ∧
    vbTampered.verify none = false := by
  have hgood : vbGood.verify none = true :=
    (verify_true_iff _ _).mpr ⟨filled_hash_ok vbBase,
      fun q hq => Option.noConfusion hq,
      fun a ha => absurd ha (List.not_mem_nil a)⟩
  have hne : vbTampered.calculate_hash ≠ vbGood.calculate_hash := by decide
  exact ⟨hgood, rfl, hne,
    verify_characterization.2 vbGood vbTampered none none hgood rfl hne⟩

/-- C6: the per-campaign state machine is one-way. Each matching update
increments the count by exactly one; an Active campaign one event short of
its goal reaches the goal and flips to Achieved on the next update; an
Achieved campaign stays Achieved under every further update sequence; the
Active-to-Achieved transition fires exactly when the bumped count reaches
the goal; and the shard-level `update_campaign_state` applies exactly this
update to the campaign found under the id. -/
theorem campaign_state_machine_one_way :
    (∀ (c : CampaignState) (a : ImpactAction) (now : Int),
      (updateMatchedCampaign c a now).verified_participants_count =
        c.verified_participants_count + 1) ∧
    (∀ (c : CampaignState) (a : ImpactAction) (now : Int),
      c.status = CampaignStatus.Active →
      c.verified_participants_count + 1 = c.goal_participants →
      (updateMatchedCampaign c a now).verified_participants_count =
        c.goal_participants ∧
      (updateMatchedCampaign c a now).status = CampaignStatus.Achieved) ∧
    (∀ (c : CampaignState) (updates : List (ImpactAction × Int)),
      c.status = CampaignStatus.Achieved →
      (updates.foldl (fun c p => updateMatchedCampaign c p.1 p.2) c).status =
        CampaignStatus.Achieved) ∧
    (∀ (c : CampaignState) (a : ImpactAction) (now : Int),
      (updateMatchedCampaign c a now).status = CampaignStatus.Achieved ∧
        c.status = CampaignStatus.Active ↔
      c.status = CampaignStatus.Active ∧
        c.goal_participants ≤ c.verified_participants_count + 1) ∧
    (∀ (sh : StanceShard) (cid : Bytes) (a : ImpactAction) (now : Int)
       (c : CampaignState),
      sh.get_campaign_state cid = some c →
      (sh.update_campaign_state cid a now).get_campaign_state cid =
        some (updateMatchedCampaign c a now)) := by
  refine ⟨updateMatchedCampaign_count, ?_, ?_, ?_, ?_⟩
  · intro c a now h1 h2
    refine ⟨by rw [updateMatchedCampaign_count, h2], ?_⟩
    rw [updateMatchedCampaign_status]
    rw [if_pos ⟨by omega, h1⟩]
  · intro c updates h
    induction updates generalizing c with
    | nil => exact h
    | cons p t ih =>
        exact ih _ (updateMatchedCampaign_keeps_achieved _ _ _ h)
  · intro c a now
    rw [updateMatchedCampaign_status]
    by_cases h2 : c.status = CampaignStatus.Active
    · by_cases h1 : c.goal_participants ≤ c.verified_participants_count + 1
      · simp [h1, h2]
      · simp [h1, h2]
    · simp [h2]
  · intro sh cid a now c h
    unfold StanceShard.get_campaign_state at h ⊢
    unfold StanceShard.update_campaign_state
    simp [find_updateFirstCampaign, h]

/-- Witness for C6: the concrete campaign at 2 of 3 flips to Achieved on
one more matching event and stays Achieved through two further updates. -/
theorem campaign_state_machine_one_way_witness :
    nearGoalCampaign.status = CampaignStatus.Active ∧
    nearGoalCampaign.verified_participants_count + 1 =
      nearGoalCampaign.goal_participants ∧
    (updateMatchedCampaign nearGoalCampaign mEvent1 5).status =
      CampaignStatus.Achieved ∧
    (([((mEvent2 : ImpactAction), (6 : Int)), (mEvent3, 7)]).foldl
        (fun c p => updateMatchedCampaign c p.1 p.2)
        (updateMatchedCampaign nearGoalCampaign mEvent1 5)).status =
      CampaignStatus.Achieved :=
  ⟨rfl, by decide,
   (campaign_state_machine_one_way.2.1 nearGoalCampaign mEvent1 5 rfl
     (by decide)).2,
   campaign_state_machine_one_way.2.2.1 _ [(mEvent2, 6), (mEvent3, 7)]
     ((campaign_state_machine_one_way.2.1 nearGoalCampaign mEvent1 5 rfl
       (by decide)).2)⟩

/-- C1 counterexample: on a concrete three-event pool, the code's Merkle
root differs from the spec's reference root (which carries the odd hash
forward unchanged) — the code re-hashes the odd leftover. -/
theorem merkle_root_odd_carry_counterexample :
    calculate_merkle_root [mEvent1, mEvent2, mEvent3] ≠
      specMerkleRoot [mEvent1, mEvent2, mEvent3] := by
  decide

/-- C1 amended: the empty pool yields the all-zero sentinel, a one-event
pool yields that event's content hash, adjacent pairs fold as
`H(left ++ right)`, and the odd leftover of a level is re-hashed alone, so
a three-event pool's root is `H(H(e1, e2), H(e3))`. -/
theorem merkle_root_shape :
    calculate_merkle_root [] = zeroSentinel ∧
    (∀ e : ImpactAction, calculate_merkle_root [e] = e.hash) ∧
    (∀ e1 e2 : ImpactAction,
      calculate_merkle_root [e1, e2] = sha256Hex (e1.hash ++ e2.hash)) ∧
    (∀ e1 e2 e3 : ImpactAction,
      calculate_merkle_root [e1, e2, e3] =
        sha256Hex (sha256Hex (e1.hash ++ e2.hash) ++ sha256Hex e3.hash)) := by
  refine ⟨rfl, fun e => ?_, fun e1 e2 => ?_, fun e1 e2 e3 => ?_⟩
  · show (merkleLevels (List.map ImpactAction.hash [e])).headD [] = e.hash
    rw [show List.map ImpactAction.hash [e] = [e.hash] from rfl]
    rw [show merkleLevels [e.hash] = [e.hash] from rfl]
    exact List.headD_cons
  · show (merkleLevels (List.map ImpactAction.hash [e1, e2])).headD [] =
      sha256Hex (e1.hash ++ e2.hash)
    rw [show List.map ImpactAction.hash [e1, e2] = [e1.hash, e2.hash] from rfl]
    rw [show merkleLevels [e1.hash, e2.hash] =
      [sha256Hex (e1.hash ++ e2.hash)] from rfl]
    exact List.headD_cons
  · show (merkleLevels (List.map ImpactAction.hash [e1, e2, e3])).headD [] =
      sha256Hex (sha256Hex (e1.hash ++ e2.hash) ++ sha256Hex e3.hash)
    rw [show List.map ImpactAction.hash [e1, e2, e3] =
      [e1.hash, e2.hash, e3.hash] from rfl]
    rw [show merkleLevels [e1.hash, e2.hash, e3.hash] =
      [sha256Hex (sha256Hex (e1.hash ++ e2.hash) ++ sha256Hex e3.hash)] from rfl]
    exact List.headD_cons

/-- C2 (amended): in the loop body of `record_user_action`, once a valid
event has been enqueued, a failing `add_block` is NOT absorbed: the error
is propagated (the `?` operator) and the events do not remain in the
pending pool — `produce_block` has already cleared it. -/
theorem record_action_append_failure_propagates :
    ∀ (sh : StanceShard) (did : Bytes) (action : ImpactAction) (now : Int)
      (e : String) (sh' : StanceShard),
      action.verify_zk_proof = true →
      recordActionOnShard sh did action now = (Except.error e, sh') →
      e = "Block verification failed" ∧ sh'.pending_actions = [] := by
  intro sh did action now e sh' hval h
  cases hver : (builtBlock (upsertedShard sh action now) did now).verify
      (upsertedShard sh action now).state.blockchain.getLast? with
  | true =>
      have hok := recordActionOnShard_fst_ok sh did action now hval hver
      rw [h] at hok
      simp at hok
  | false =>
      rw [recordActionOnShard_verify_false sh did action now hval hver] at h
      rw [Prod.mk.injEq] at h
      obtain ⟨h1, h2⟩ := h
      refine ⟨?_, ?_⟩
      · injection h1 with h1
        exact h1.symm
      · rw [← h2]

/-- Witness for C2: on the stray-tail fixture the loop body errors after a
successful enqueue, and the resulting pool is empty. -/
theorem record_action_append_failure_propagates_witness :
    strayAction.verify_zk_proof = true ∧
    recordActionOnShard strayShard strayDid strayAction 1700000000 =
      (Except.error "Block verification failed",
       { upsertedShard strayShard strayAction 1700000000 with
         pending_actions := [] }) ∧
    ({ upsertedShard strayShard strayAction 1700000000 with
       pending_actions := ([] : List ImpactAction) } :
        StanceShard).pending_actions = [] := by
  have hval : strayAction.verify_zk_proof = true := by decide
  have hstep := recordActionOnShard_verify_false strayShard strayDid
    strayAction 1700000000 hval stray_built_verify_false
  exact ⟨hval, hstep,
    (record_action_append_failure_propagates strayShard strayDid strayAction
      1700000000 "Block verification failed" _ hval hstep).2⟩

/-- C2 counterexample: on a concrete protocol whose single shard carries a
stray index-5 tail, `record_user_action` returns the append error to the
caller (it is not absorbed) and the shard's pending pool is empty (the
enqueued event does not remain for a future attempt). -/
theorem record_rollback_counterexample :
    (strayProtocol.record_user_action strayUid ActionType.Boycott
       (asciiBytes "ACME") 100 1700000000 (asciiBytes "id-1")).1 =
      Except.error "Block verification failed" ∧
    ((strayProtocol.record_user_action strayUid ActionType.Boycott
       (asciiBytes "ACME") 100 1700000000 (asciiBytes "id-1")).2.shards.map
      (fun q => q.2.pending_actions)) = [[]] := by
  have hstep := recordActionOnShard_verify_false strayShard strayDid
    strayAction 1700000000 (by decide) stray_built_verify_false
  have hrec := record_user_action_single_shard_err strayProtocol strayUid
    strayUser (asciiBytes "s1") strayShard ActionType.Boycott
    (asciiBytes "ACME") 100 1700000000 (asciiBytes "id-1")
    "Block verification failed"
    { upsertedShard strayShard strayAction 1700000000 with
      pending_actions := [] }
    rfl rfl rfl (by exact hstep)
  rw [hrec]
  exact ⟨rfl, rfl⟩

/-- C5: producing and appending N blocks sequentially onto an empty shard
(each round refilling the pool through `add_pending_action`, then
`produce_block` followed by `add_block`) yields a chain whose heights are
the 0-based positions — strictly increasing and gapless — and whose every
block's previous-hash equals the hash of the block before it; and `verify`
rejects any block whose previous hash does not match the given previous
block. -/
theorem hash_chain_integrity :
    (∀ (sh : StanceShard) (steps : List (List ImpactAction × Bytes × Int)),
      sh.state.blockchain = [] → sh.pending_actions = [] →
      (∀ s ∈ steps, s.1 ≠ [] ∧ ∀ a ∈ s.1, a.verify_zk_proof = true) →
      (runChain sh steps).state.blockchain.length = steps.length ∧
      ChainIndexedLinked (runChain sh steps).state.blockchain) ∧
    (∀ (b q : PolisBlock) , b.previous_hash ≠ q.hash →
      b.verify (some q) = false) := by
  constructor
  · intro sh steps hchain hpend hsteps
    have hg : GoodShard sh := by
      refine ⟨hpend, ?_, ?_⟩
      · intro i h
        rw [hchain] at h
        simp at h
      · intro i h h'
        rw [hchain] at h
        simp at h
    have := runChain_good steps sh hg hsteps
    rw [hchain] at this
    exact ⟨by simpa using this.2, this.1.2⟩
  · intro b q hne
    cases hv : b.verify (some q) with
    | false => rfl
    | true =>
        have := ((verify_true_iff b (some q)).mp hv).2.1 q rfl
        exact absurd this.1 hne

/-- Witness for C5: two concrete sequential one-event rounds on the fresh
shard produce a two-block chain. -/
theorem hash_chain_integrity_witness :
    seqShard.state.blockchain = [] ∧
    seqShard.pending_actions = [] ∧
    (∀ s ∈ seqSteps, s.1 ≠ [] ∧ ∀ a ∈ s.1, a.verify_zk_proof = true) ∧
    (runChain seqShard seqSteps).state.blockchain.length = 2 :=
  ⟨rfl, rfl, by decide,
   (hash_chain_integrity.1 seqShard seqSteps rfl rfl (by decide)).1⟩

/-- C9: an identity whose point matches zero regions registers
successfully (`Ok`), with an empty shard set stored in the routing table
and no shard touched; a subsequent `record_user_action` for it succeeds
and leaves every shard (campaigns, pools, chains) unchanged. -/
theorem empty_routing_no_op :
    ∀ (p : PolisProtocol) (uid name : Bytes) (coords : ℚ × ℚ × ℚ)
      (now : Int) (atype : ActionType) (target : Bytes) (value : Nat)
      (now2 : Int) (fid : Bytes),
    p.route_user coords = [] →
    (p.register_firebase_user uid name coords now).1 =
      Except.ok (didPolisFirebase ++ uid) ∧
    (p.register_firebase_user uid name coords now).2.shards = p.shards ∧
    lookupA (p.register_firebase_user uid name coords now).2.user_routes
      (didPolisFirebase ++ uid) = some [] ∧
    ((p.register_firebase_user uid name coords now).2.record_user_action uid
       atype target value now2 fid).1 = Except.ok () ∧
    ((p.register_firebase_user uid name coords now).2.record_user_action uid
       atype target value now2 fid).2.shards =
      (p.register_firebase_user uid name coords now).2.shards := by
  intro p uid name coords now atype target value now2 fid hroute
  have hreg : p.register_firebase_user uid name coords now =
      (Except.ok (didPolisFirebase ++ uid),
       { p with
         firebase_users := insertA p.firebase_users uid
           { firebase_uid := uid, polis_did := didPolisFirebase ++ uid,
             display_name := name, coordinates := coords, is_online := true,
             last_activity := now, total_actions := 0 },
         user_routes := insertA p.user_routes (didPolisFirebase ++ uid) [] }) := by
    unfold PolisProtocol.register_firebase_user
    rw [hroute]
    simp
  rw [hreg]
  have hrec := record_user_action_empty_routes
    { p with
      firebase_users := insertA p.firebase_users uid
        { firebase_uid := uid, polis_did := didPolisFirebase ++ uid,
          display_name := name, coordinates := coords, is_online := true,
          last_activity := now, total_actions := 0 },
      user_routes := insertA p.user_routes (didPolisFirebase ++ uid) [] }
    uid
    { firebase_uid := uid, polis_did := didPolisFirebase ++ uid,
      display_name := name, coordinates := coords, is_online := true,
      last_activity := now, total_actions := 0 }
    atype target value now2 fid
    (lookupA_insertA_self _ _ _) (lookupA_insertA_self _ _ _)
  rw [hrec]
  exact ⟨rfl, rfl, lookupA_insertA_self _ _ _, rfl, rfl⟩

/-- Witness for C9: the coordinates (0, 80, 0) match none of the five base
shards; registering and then recording an action both succeed. -/
theorem empty_routing_no_op_witness :
    PolisProtocol.new.route_user unroutedCoords = [] ∧
    (PolisProtocol.new.register_firebase_user (asciiBytes "u7")
       (asciiBytes "Nia") unroutedCoords 1700000000).1 =
      Except.ok (didPolisFirebase ++ asciiBytes "u7") ∧
    ((PolisProtocol.new.register_firebase_user (asciiBytes "u7")
        (asciiBytes "Nia") unroutedCoords 1700000000).2.record_user_action
       (asciiBytes "u7") ActionType.Vote (asciiBytes "ACME") 500 1700000001
       (asciiBytes "id-2")).1 = Except.ok () ∧
    ((PolisProtocol.new.register_firebase_user (asciiBytes "u7")
        (asciiBytes "Nia") unroutedCoords 1700000000).2.record_user_action
       (asciiBytes "u7") ActionType.Vote (asciiBytes "ACME") 500 1700000001
       (asciiBytes "id-2")).2.shards =
      (PolisProtocol.new.register_firebase_user (asciiBytes "u7")
        (asciiBytes "Nia") unroutedCoords 1700000000).2.shards := by
  have h := empty_routing_no_op PolisProtocol.new (asciiBytes "u7")
    (asciiBytes "Nia") unroutedCoords 1700000000 ActionType.Vote
    (asciiBytes "ACME") 500 1700000001 (asciiBytes "id-2") (by decide)
  exact ⟨by decide, h.1, h.2.2.2.1, h.2.2.2.2⟩

end Stanse
